import Mathlib

/-!
Verification development for the DOMShell repository.

Shallow embedding of:
  - the MCP Protocol Gateway (`src/mcp-server/index.ts`): command tiers,
    the allow-check, sensitive-output redaction, `executeWithSecurity`;
  - the Snapshot Mapper (`src/src/background/vfs_mapper.ts`): node naming,
    container classification, flattening traversal, name deduplication,
    path resolution;
  - the Navigation Kernel (background shell): unified path state,
    staleness refresh, `cd` navigation, click/focus/type handlers.

JavaScript strings are modelled as Lean `String`/`List Char`; JS `Map` is
modelled as an association list with insert-or-replace (which preserves
first-insertion iteration order exactly as a JS `Map` does); effects
(CDP calls, the confirmation prompt, the WebSocket send) are passed in as
explicit arguments, and each function returns the data the source computes.
-/

/-! ## JS string primitives -/

/-- JS `\s` (whitespace class) restricted to the ASCII range that can occur in
command strings: space, tab, newline, carriage return, vertical tab, form feed. -/
def jsIsWhitespace (c : Char) : Bool :=
  c = ' ' || c = '\t' || c = '\n' || c = '\r' || c = '\x0b' || c = '\x0c'

/-- The ECMA-262 LineTerminator characters: LF, CR, LS (U+2028), PS (U+2029).
With the regex `m` flag, `^` and `$` anchor at exactly these characters. -/
def lineTerminator (c : Char) : Bool :=
  c = '\n' || c = '\r' || c = Char.ofNat 0x2028 || c = Char.ofNat 0x2029

/-- JS `.` (without the `s` flag): any character except the LineTerminators. -/
def jsDot (c : Char) : Bool :=
  !lineTerminator c

/-- Embeds `command.trim().split(/\s+/)[0]?.toLowerCase() ?? ""` — leading verb of a
command string, lower-cased (empty string when the command is all whitespace). -/
def commandVerb (s : String) : String :=
  String.mk ((((s.toList).dropWhile jsIsWhitespace).takeWhile
    (fun c => !jsIsWhitespace c)).map Char.toLower)

/-! ## Protocol Gateway: command tiers (`src/mcp-server/index.ts` lines 56-80) -/

def NAVIGATE_COMMANDS : List String := ["navigate", "goto", "open"]

def WRITE_COMMANDS : List String := ["click", "focus", "type"]

def SENSITIVE_COMMANDS : List String := ["whoami"]

inductive Tier where
  | read
  | navigate
  | write
  | sensitive
deriving DecidableEq

/-- Embeds `getCommandTier` from the MCP server. -/
def getCommandTier (command : String) : Tier :=
  let cmd := commandVerb command
  if NAVIGATE_COMMANDS.contains cmd then Tier.navigate
  else if WRITE_COMMANDS.contains cmd then Tier.write
  else if SENSITIVE_COMMANDS.contains cmd then Tier.sensitive
  else Tier.read

/-- The CLI flags the gateway reads at startup. -/
structure GatewayConfig where
  allowWrite : Bool
  allowSensitive : Bool
  noConfirm : Bool
  exposeCookies : Bool

def navDisabledMsg : String :=
  "Navigation commands (navigate/open) are disabled. Start the MCP server with --allow-write or --allow-all."

def writeDisabledMsg : String :=
  "Write commands (click/focus/type) are disabled. Start the MCP server with --allow-write or --allow-all."

def sensitiveDisabledMsg : String :=
  "Sensitive commands (whoami) are disabled. Start the MCP server with --allow-sensitive or --allow-all."

/-- Embeds `isCommandAllowed`: `none` means `{allowed: true}`, `some reason` means
`{allowed: false, reason}`. -/
def isCommandAllowed (cfg : GatewayConfig) (command : String) : Option String :=
  match getCommandTier command with
  | Tier.navigate => if !cfg.allowWrite then some navDisabledMsg else none
  | Tier.write => if !cfg.allowWrite then some writeDisabledMsg else none
  | Tier.sensitive => if !cfg.allowSensitive then some sensitiveDisabledMsg else none
  | Tier.read => none

/-! ## Sensitive-output redaction (`src/mcp-server/index.ts` lines 112-127)

The pattern `/^(.*?(?:cookie|session|token|jwt|auth|sid).*?=\s*)(.{4})(.+?)(.{4})$/gim`
is embedded by applying it to each line of the output, a line being a maximal
run free of the ECMA-262 LineTerminator characters: with the `m` flag, `^` and
`$` anchor at exactly those characters and `.` matches none of them, so every
match lies within one such run — in particular a line of the kernel's
`\r\n`-joined output, which ends in `\r` after splitting on `\n`, is redacted
just as the source does (`$` anchors before the `\r`).  (`=\s*` could in
principle span a terminator when a keyword line ends exactly at the `=`; `\s`
is modelled within a line.)  The search below reproduces the backtracking
priority of the engine: match start positions left to right (each blocked by
a non-`.` character), alternation alternatives in written order, `=`
positions left to right, and the greedy `\s*` backing off.  The result is the
length of the first capture group (everything through `\s*`); the rest of the
run is the value: 4 kept chars, a masked middle, 4 kept chars. -/

def redactKeywords : List (List Char) :=
  [("cookie").toList, ("session").toList, ("token").toList,
   ("jwt").toList, ("auth").toList, ("sid").toList]

/-- Can `(.{4})(.+?)(.{4})$` match the remainder: at least 9 characters, all
matchable by `.`. -/
def validRem (rem : List Char) : Bool :=
  decide (9 ≤ rem.length) && rem.all jsDot

/-- Greedy `\s*` backing off: try consuming `w` whitespace characters after the
`=` at position `j1 - 1`, largest first. Returns the split point (prefix
length) on success. -/
def tryW (cs : List Char) (j1 : Nat) : Nat → Option Nat
  | 0 => if validRem (cs.drop j1) then some j1 else none
  | w+1 =>
    if validRem (cs.drop (j1 + (w+1))) then some (j1 + (w+1))
    else tryW cs j1 w

/-- Runs `.*?=\s*` after the keyword: scan positions `j` left to right looking for
`=`; at each `=` run the `\s*` backoff; a non-`.` character stops the scan. -/
def tryEqAux (cs : List Char) : Nat → Nat → Option Nat
  | 0, _ => none
  | fuel+1, j =>
    match cs.get? j with
    | none => none
    | some c =>
      if c = '=' then
        let wMax := ((cs.drop (j+1)).takeWhile jsIsWhitespace).length
        match tryW cs (j+1) wMax with
        | some k => some k
        | none => tryEqAux cs fuel (j+1)
      else if jsDot c then tryEqAux cs fuel (j+1) else none

/-- Alternation at a fixed start position: keywords in written order
(case-insensitive). -/
def tryKwList (cs : List Char) (i : Nat) : List (List Char) → Option Nat
  | [] => none
  | kw :: rest =>
    if kw.isPrefixOf ((cs.drop i).map Char.toLower) then
      match tryEqAux cs (cs.length + 1) (i + kw.length) with
      | some k => some k
      | none => tryKwList cs i rest
    else tryKwList cs i rest

/-- Match start positions left to right; a position is reachable only while the
leading `.*?` can consume every character before it. -/
def findSplitAux (cs : List Char) : Nat → Nat → Option Nat
  | 0, _ => none
  | fuel+1, i =>
    match tryKwList cs i redactKeywords with
    | some k => some k
    | none =>
      match cs.get? i with
      | none => none
      | some c => if jsDot c then findSplitAux cs fuel (i+1) else none

/-- Leftmost match of the redaction pattern on one line; returns the length of
the prefix group (through `\s*`) or `none` when the line does not match. -/
def findSplit (cs : List Char) : Option Nat :=
  findSplitAux cs (cs.length + 1) 0

/-- One terminator-free run of `output.replace(pattern,
(_, prefix, start, _middle, end) => prefix + start + "***" + end)`. -/
def maskPiece (piece : List Char) : List Char :=
  match findSplit piece with
  | none => piece
  | some k =>
    let rem := piece.drop k
    piece.take k ++ rem.take 4 ++ ("***").toList ++ rem.drop (rem.length - 4)

/-- Applies `maskPiece` to every maximal LineTerminator-free run, keeping the
terminators themselves in place (`acc` holds the current run reversed). -/
def redactChunksAux (acc : List Char) : List Char → List Char
  | [] => maskPiece acc.reverse
  | c :: rest =>
    if lineTerminator c then maskPiece acc.reverse ++ c :: redactChunksAux ([]) rest
    else redactChunksAux (c :: acc) rest

/-- Redaction of one `\n`-delimited piece of the output; the piece may still
contain `\r` (CRLF output) or the other terminators, at which `^`/`$` anchor. -/
def redactLine (l : String) : String :=
  String.mk (redactChunksAux ([]) l.toList)

/-- Embeds `redactSensitiveOutput` from the MCP server. -/
def redactSensitiveOutput (cfg : GatewayConfig) (command output : String) : String :=
  if !(SENSITIVE_COMMANDS.contains (commandVerb command)) then output
  else if !cfg.exposeCookies then
    String.intercalate ("\n") ((output.splitOn ("\n")).map redactLine)
  else output

/-! ## `executeWithSecurity` (`src/mcp-server/index.ts` lines 238-271)

Effects are passed as arguments: `userAnswer` is the y/n answer the
confirmation prompt would collect (`confirmAction` returns `true` immediately
under `--no-confirm`), and `kernel` is the outcome `sendCommand` would settle
with (`Except.error` covers both the not-connected rejection and a timeout).
`sent` records whether `sendCommand` was invoked at all. -/

structure ExecOutcome where
  result : String
  sent : Bool
  auditTrail : List String

def tierTag : Tier → String
  | Tier.write => "[WRITE] "
  | Tier.navigate => "[NAV] "
  | Tier.sensitive => "[SENSITIVE] "
  | Tier.read => ""

/-- Embeds `result.length > 80 ? result.slice(0, 80) + "..." : result`. -/
def summarize (r : String) : String :=
  if 80 < r.length then r.take 80 ++ "..." else r

def executeWithSecurity (cfg : GatewayConfig) (userAnswer : Bool)
    (kernel : Except String String) (command : String) : ExecOutcome :=
  match isCommandAllowed cfg command with
  | some reason =>
    { result := "Error: " ++ reason
      sent := false
      auditTrail := ["DENIED: " ++ command ++ " — " ++ reason] }
  | none =>
    let tier := getCommandTier command
    let approved := cfg.noConfirm || userAnswer
    if tier = Tier.write ∧ approved = false then
      { result := "Action denied by user."
        sent := false
        auditTrail := ["[WRITE] DENIED by user: " ++ command] }
    else
      let tag := tierTag tier
      match kernel with
      | Except.ok raw =>
        let res := redactSensitiveOutput cfg command raw
        { result := res
          sent := true
          auditTrail := [tag ++ "EXECUTE: " ++ command, tag ++ "RESULT: " ++ summarize res] }
      | Except.error e =>
        { result := "Error: " ++ e
          sent := true
          auditTrail := [tag ++ "EXECUTE: " ++ command, tag ++ "ERROR: " ++ e] }

/-! ## Gateway theorems (claims C1, C10, C5) -/

theorem isPrefixOf_append_self (n y : List Char) : n.isPrefixOf (n ++ y) = true := by
  induction n with
  | nil => cases y <;> rfl
  | cons c cs ih => simp [List.isPrefixOf, ih]

/-- Does `needle` occur as a contiguous segment of the list. -/
def hasSegAux (needle : List Char) : List Char → Bool
  | [] => needle.isEmpty
  | c :: rest => needle.isPrefixOf (c :: rest) || hasSegAux needle rest

theorem hasSeg_of_head (n y : List Char) (h : n ≠ []) : hasSegAux n (n ++ y) = true := by
  cases n with
  | nil => exact absurd rfl h
  | cons c cs =>
    have : (c :: cs).isPrefixOf (c :: cs ++ y) = true := isPrefixOf_append_self (c :: cs) y
    simp [hasSegAux, this]

theorem hasSeg_of_append (n x y : List Char) (h : n ≠ []) :
    hasSegAux n (x ++ (n ++ y)) = true := by
  induction x with
  | nil => simpa using hasSeg_of_head n y h
  | cons c xs ih => simp [hasSegAux, ih]

/-- C1: a `write`- or `navigate`-tier command is rejected with the fixed
explanatory message and never forwarded to the Kernel (`sendCommand` not
invoked) when the write-enable flag is off, and likewise a `sensitive`-tier
command when the sensitive-enable flag is off. -/
theorem gatedTiersRejectedWithoutForwarding (cfg : GatewayConfig) (ua : Bool)
    (k : Except String String) (cmd : String) :
    (cfg.allowWrite = false → getCommandTier cmd = Tier.write →
      (executeWithSecurity cfg ua k cmd).result = "Error: " ++ writeDisabledMsg ∧
      (executeWithSecurity cfg ua k cmd).sent = false) ∧
    (cfg.allowWrite = false → getCommandTier cmd = Tier.navigate →
      (executeWithSecurity cfg ua k cmd).result = "Error: " ++ navDisabledMsg ∧
      (executeWithSecurity cfg ua k cmd).sent = false) ∧
    (cfg.allowSensitive = false → getCommandTier cmd = Tier.sensitive →
      (executeWithSecurity cfg ua k cmd).result = "Error: " ++ sensitiveDisabledMsg ∧
      (executeWithSecurity cfg ua k cmd).sent = false) := by
  refine ⟨fun h ht => ?_, fun h ht => ?_, fun h ht => ?_⟩ <;>
    simp [executeWithSecurity, isCommandAllowed, ht, h]

theorem gatedTiersRejectedWithoutForwarding_witness :
    (executeWithSecurity ⟨false, false, true, false⟩ true (Except.ok ("done")) ("click submit_btn")).sent = false ∧
    (executeWithSecurity ⟨false, false, true, false⟩ true (Except.ok ("done")) ("navigate example.com")).sent = false ∧
    (executeWithSecurity ⟨false, false, true, false⟩ true (Except.ok ("done")) ("whoami")).sent = false :=
  ⟨((gatedTiersRejectedWithoutForwarding ⟨false, false, true, false⟩ true
      (Except.ok ("done")) ("click submit_btn")).1 rfl (by decide)).2,
   ((gatedTiersRejectedWithoutForwarding ⟨false, false, true, false⟩ true
      (Except.ok ("done")) ("navigate example.com")).2.1 rfl (by decide)).2,
   ((gatedTiersRejectedWithoutForwarding ⟨false, false, true, false⟩ true
      (Except.ok ("done")) ("whoami")).2.2 rfl (by decide)).2⟩

/-- C10: a command whose lower-cased leading verb is in none of the navigate,
write, or sensitive verb sets classifies as `read`, is always permitted, and is
forwarded to the Kernel (`sendCommand` invoked) regardless of the flags. -/
theorem readTierAlwaysForwarded (cfg : GatewayConfig) (ua : Bool)
    (k : Except String String) (cmd : String)
    (h1 : NAVIGATE_COMMANDS.contains (commandVerb cmd) = false)
    (h2 : WRITE_COMMANDS.contains (commandVerb cmd) = false)
    (h3 : SENSITIVE_COMMANDS.contains (commandVerb cmd) = false) :
    getCommandTier cmd = Tier.read ∧ isCommandAllowed cfg cmd = none ∧
    (executeWithSecurity cfg ua k cmd).sent = true := by
  have n1 : commandVerb cmd ∉ NAVIGATE_COMMANDS := by simpa using h1
  have n2 : commandVerb cmd ∉ WRITE_COMMANDS := by simpa using h2
  have n3 : commandVerb cmd ∉ SENSITIVE_COMMANDS := by simpa using h3
  have ht : getCommandTier cmd = Tier.read := by
    simp [getCommandTier, n1, n2, n3]
  have ha : isCommandAllowed cfg cmd = none := by
    simp [isCommandAllowed, ht]
  refine ⟨ht, ha, ?_⟩
  cases k <;> simp [executeWithSecurity, ha, ht]

theorem readTierAlwaysForwarded_witness :
    getCommandTier ("refresh") = Tier.read ∧
    isCommandAllowed ⟨false, false, false, false⟩ ("refresh") = none ∧
    (executeWithSecurity ⟨false, false, false, false⟩ false (Except.ok ("ok")) ("refresh")).sent = true :=
  readTierAlwaysForwarded ⟨false, false, false, false⟩ false (Except.ok ("ok")) ("refresh")
    (by decide) (by decide) (by decide)

/-- C5: with the expose-cookies flag off, a sensitive-tier result is redacted
line by line — a line being a maximal run free of the JS LineTerminators, so
the kernel's CRLF-joined output is covered — and every such line of the
redacted output that still matches the cookie/session/token/jwt/auth/sid
assignment pattern carries the `***` mask in place of the middle of its value
(so no matching line survives unredacted). -/
theorem sensitiveOutputRedacted (cfg : GatewayConfig) (cmd out : String)
    (hs : SENSITIVE_COMMANDS.contains (commandVerb cmd) = true)
    (he : cfg.exposeCookies = false) :
    redactSensitiveOutput cfg cmd out =
      String.intercalate ("\n") ((out.splitOn ("\n")).map redactLine) ∧
    (∀ l : String, redactLine l = String.mk (redactChunksAux ([]) l.toList)) ∧
    ∀ piece : List Char, (findSplit (maskPiece piece)).isSome = true →
      hasSegAux (("***").toList) (maskPiece piece) = true := by
  have hs' : commandVerb cmd ∈ SENSITIVE_COMMANDS := by simpa using hs
  refine ⟨by simp [redactSensitiveOutput, hs', he], fun l => rfl, ?_⟩
  intro piece h
  cases hf : findSplit piece with
  | none =>
    simp [maskPiece, hf] at h
  | some k =>
    simp only [maskPiece, hf]
    have hne : (("***").toList : List Char) ≠ [] := by decide
    simpa using
      hasSeg_of_append (("***").toList)
        (piece.take k ++ (piece.drop k).take 4)
        ((piece.drop k).drop ((piece.drop k).length - 4)) hne

theorem sensitiveOutputRedacted_witness :
    redactSensitiveOutput ⟨false, false, false, false⟩ ("whoami")
        ("auth=secretvalue123\r\nVia: session_cookie\r") =
      String.intercalate ("\n")
        ((("auth=secretvalue123\r\nVia: session_cookie\r").splitOn ("\n")).map redactLine) ∧
    (∀ l : String, redactLine l = String.mk (redactChunksAux ([]) l.toList)) ∧
    ∀ piece : List Char, (findSplit (maskPiece piece)).isSome = true →
      hasSegAux (("***").toList) (maskPiece piece) = true :=
  sensitiveOutputRedacted ⟨false, false, false, false⟩ ("whoami")
    ("auth=secretvalue123\r\nVia: session_cookie\r") (by decide) rfl

/-! ## Snapshot Mapper data model (`src/src/shared/types.ts`) -/

/-- A raw accessibility node as delivered by CDP.  The `{type, value}` wrappers
of `role`/`name`/`description`/`value` are flattened to their `.value`
projections, which is all the mapper ever reads.  A missing optional field is
`none`; `ignored` is the truthiness of the optional flag. -/
structure AXNode where
  nodeId : String
  backendDOMNodeId : Option Nat := none
  role : Option String := none
  name : Option String := none
  description : Option String := none
  value : Option String := none
  childIds : Option (List String) := none
  ignored : Bool := false
deriving DecidableEq

/-- A mapped virtual-filesystem entry. -/
structure VFSNode where
  axNodeId : String
  backendDOMNodeId : Option Nat
  name : String
  role : String
  value : Option String
  isDirectory : Bool
deriving DecidableEq

/-- A JS `Map<string, AXNode>` as an association list: `mapSet` replaces in
place (preserving first-insertion iteration order) or appends, exactly like
`Map.set`; `List.lookup` is `Map.get`. -/
abbrev NodeMap := List (String × AXNode)

def mapSet (m : NodeMap) (k : String) (v : AXNode) : NodeMap :=
  match m with
  | [] => [(k, v)]
  | (k', v') :: rest => if k' = k then (k, v) :: rest else (k', v') :: mapSet rest k v

/-- Embeds `buildNodeMap` from the mapper. -/
def buildNodeMap (axNodes : List AXNode) : NodeMap :=
  axNodes.foldl (fun m n => mapSet m n.nodeId n) []

def CONTAINER_ROLES : List String :=
  ["group", "navigation", "form", "search", "section", "main", "complementary",
   "banner", "contentinfo", "region", "article", "list", "listitem", "tree",
   "treeitem", "tablist", "tabpanel", "dialog", "menu", "menubar", "toolbar",
   "table", "row", "rowgroup", "grid", "document", "application", "figure",
   "feed", "log", "status", "timer", "alertdialog", "generic", "WebArea",
   "RootWebArea", "Iframe", "IframePresentational"]

def INTERACTIVE_ROLES : List String :=
  ["button", "link", "textbox", "checkbox", "radio", "combobox", "menuitem",
   "menuitemcheckbox", "menuitemradio", "option", "switch", "tab", "slider",
   "spinbutton", "searchbox"]

/-! ## Naming (`vfs_mapper.ts` lines 17-70) -/

/-- Embeds `/\s+/g → "_"`: collapse each whitespace run to a single underscore. -/
def collapseWsAux : Bool → List Char → List Char
  | _, [] => []
  | inRun, c :: rest =>
    if jsIsWhitespace c then
      if inRun then collapseWsAux true rest
      else '_' :: collapseWsAux true rest
    else c :: collapseWsAux false rest

/-- The `sanitize` closure of `generateNodeName`: lower-case, strip characters
outside `[a-z0-9\s_-]`, trim, collapse whitespace runs to `_`, truncate to 40. -/
def sanitize (text : String) : String :=
  let kept := (text.toList.map Char.toLower).filter
    (fun c => ('a' ≤ c && c ≤ 'z') || ('0' ≤ c && c ≤ '9') ||
      jsIsWhitespace c || c = '_' || c = '-')
  let trimmed := ((kept.dropWhile jsIsWhitespace).reverse.dropWhile jsIsWhitespace).reverse
  String.mk ((collapseWsAux false trimmed).take 40)

def roleSuffixTable : List (String × String) :=
  [("button", "_btn"), ("link", "_link"), ("textbox", "_input"),
   ("checkbox", "_chk"), ("radio", "_radio"), ("combobox", "_select"),
   ("menuitem", "_item"), ("tab", "_tab"), ("slider", "_slider"),
   ("searchbox", "_search"), ("switch", "_switch"), ("img", "_img"),
   ("image", "_img"), ("heading", "_heading")]

/-- Embeds `roleSuffix[role] ?? ""`. -/
def roleSuffix (role : String) : String :=
  (List.lookup role roleSuffixTable).getD ("")

/-- Embeds `generateNodeName` from the mapper. -/
def generateNodeName (node : AXNode) : String :=
  let role := node.role.getD ("unknown")
  let name := node.name.getD ("")
  let description := node.description.getD ("")
  if name ≠ "" ∧ sanitize name ≠ "" then
    sanitize name ++ roleSuffix role
  else if description ≠ "" ∧ sanitize description ≠ "" then
    sanitize description ++ roleSuffix role
  else
    role ++ (if roleSuffix role ≠ "" then roleSuffix role else "_" ++ node.nodeId)

/-! ## Classification and flattening (`vfs_mapper.ts` lines 75-133) -/

/-- Embeds `isContainerNode` from the mapper. -/
def isContainerNode (node : AXNode) : Bool :=
  let role := node.role.getD ("")
  if CONTAINER_ROLES.contains role then true
  else
    match node.childIds with
    | some cids => decide (0 < cids.length) && !INTERACTIVE_ROLES.contains role
    | none => false

/-- Embeds `findRootNode` from the mapper: first node (in insertion order) with role
`RootWebArea`/`WebArea`, else the first node, else `none`. -/
def findRootNode (m : NodeMap) : Option AXNode :=
  match m.find? (fun p => p.2.role.getD ("") == "RootWebArea" ||
      p.2.role.getD ("") == "WebArea") with
  | some p => some p.2
  | none => m.head?.map (fun p => p.2)

/-- Embeds `shouldFlattenNode` from the mapper. -/
def shouldFlattenNode (node : AXNode) : Bool :=
  if node.ignored then true
  else
    let role := node.role.getD ("")
    if role = "none" || role = "Ignored" then true
    else if role = "generic" && node.name.getD ("") = "" then true
    else false

/-- Embeds `axNodeToVFSNode` from the mapper. -/
def axNodeToVFSNode (node : AXNode) : Option VFSNode :=
  let role := node.role.getD ("")
  if role = "none" || role = "Ignored" then none
  else some
    { axNodeId := node.nodeId
      backendDOMNodeId := node.backendDOMNodeId
      name := generateNodeName node
      role := role
      value := node.value
      isDirectory := isContainerNode node }

/-! ## Deduplication and traversal (`vfs_mapper.ts` lines 140-216) -/

/-- The `seenNames` map (`Map<string, number>`). -/
abbrev SeenMap := List (String × Nat)

def seenSet (s : SeenMap) (k : String) (n : Nat) : SeenMap :=
  match s with
  | [] => [(k, n)]
  | (k', v') :: rest => if k' = k then (k, n) :: rest else (k', v') :: seenSet rest k n

/-- Embeds `deduplicateName`: returns the (possibly suffixed) name together with the
updated `seenNames` map. -/
def deduplicateName (baseName : String) (seen : SeenMap) : String × SeenMap :=
  let count := (List.lookup baseName seen).getD 0
  (if 0 < count then baseName ++ "_" ++ toString (count + 1) else baseName,
   seenSet seen baseName (count + 1))

/-- The mutable state threaded through `collectChildren`: the `results` array,
the `seenNames` map and the `visited` set. -/
structure TravSt where
  results : List VFSNode
  seen : SeenMap
  visited : List String
deriving DecidableEq

/-!
Below, `collectChildren` and its `for` loop over `parent.childIds` are
embedded as a fuel-indexed mutual recursion: the source recursion terminates
via the `visited` set; here every call steps the fuel down once, and the
entry points pass fuel that dominates the total number of steps the
visited-guarded traversal can take, so the fuel never runs out.
-/
mutual
def collectChildren : Nat → NodeMap → String → TravSt → TravSt
  | 0, _, _, st => st
  | fuel+1, m, parentId, st =>
    if st.visited.contains parentId then st
    else
      let st1 : TravSt := { st with visited := parentId :: st.visited }
      match List.lookup parentId m with
      | none => st1
      | some parent =>
        match parent.childIds with
        | none => st1
        | some cids => goChildren fuel m cids st1
  termination_by structural fuel => fuel

def goChildren : Nat → NodeMap → List String → TravSt → TravSt
  | 0, _, _, st => st
  | _+1, _, [], st => st
  | fuel+1, m, childId :: rest, st =>
    let st' : TravSt :=
      match List.lookup childId m with
      | none => st
      | some child =>
        if shouldFlattenNode child then
          match child.childIds with
          | some l => if 0 < l.length then collectChildren fuel m childId st else st
          | none => st
        else
          match axNodeToVFSNode child with
          | none => st
          | some v =>
            let nm := deduplicateName v.name st.seen
            { results := st.results ++ [{ v with name := nm.1 }]
              seen := nm.2
              visited := st.visited }
    goChildren fuel m rest st'
  termination_by structural fuel => fuel
end

/-- Fuel that strictly dominates the number of steps the visited-guarded
traversal of `m` can take: every pushed child id is a child of some map entry
and every entry is expanded at most once. -/
def nodeMapFuel (m : NodeMap) : Nat :=
  m.foldl (fun acc p => acc + (p.2.childIds.getD ([])).length) 0 + 2 * m.length + 4

/-- Embeds `getChildVFSNodes` from the mapper. -/
def getChildVFSNodes (parentId : String) (m : NodeMap) : List VFSNode :=
  (collectChildren (nodeMapFuel m) m parentId ⟨[], [], []⟩).results

/-- Embeds `findChildByName` from the mapper. -/
def findChildByName (parentId name : String) (m : NodeMap) : Option VFSNode :=
  (getChildVFSNodes parentId m).find? (fun c => c.name == name)

/-- Splitting on a separator character, as JS `String.prototype.split` with a
one-character separator (keeps empty pieces; the empty string yields `[""]`). -/
def jsSplitAux (sep : Char) : List Char → List (List Char)
  | [] => [[]]
  | c :: rest =>
    match jsSplitAux sep rest with
    | [] => [[]]
    | acc :: accs => if c = sep then [] :: acc :: accs else (c :: acc) :: accs

def jsSplit (sep : Char) (s : String) : List String :=
  (jsSplitAux sep s.toList).map String.mk

/-- The `for` loop of `resolveByPath`. -/
def resolveSegsLoop (m : NodeMap) : String → List String → Option VFSNode → Option VFSNode
  | _, [], resolved => resolved
  | currentParentId, segment :: rest, _ =>
    match findChildByName currentParentId segment m with
    | none => none
    | some r => resolveSegsLoop m r.axNodeId rest (some r)

/-- Embeds `resolveByPath` from the mapper. -/
def resolveByPath (startId : String) (nameOrPath : String) (m : NodeMap) : Option VFSNode :=
  let segments := (jsSplit '/' nameOrPath).filter (fun s => s ≠ "")
  if segments.length = 0 then none
  else if segments.length = 1 then findChildByName startId (segments.headD ("")) m
  else resolveSegsLoop m startId segments none

/-! ## Navigation Kernel (background shell)

The kernel's module-level mutable state (`state`, `nodeMap`, `treeStale`) is
bundled into `KernelState`; the `env` map is omitted (no embedded handler
reads it).  Browser/CDP effects are supplied through oracle records: `fetched`
is what `cdp.getAllFrameAXTrees()` would return, `attach` the outcome of
`cdp.attach`, and so on.  Handlers that `throw` surface the message the
dispatcher's catch block would render (`Error: ...` in red), leaving the state
exactly as the throw would. -/

structure KernelState where
  path : List String
  axNodeIds : List String
  activeTabId : Option Int
  nodeMap : NodeMap
  treeStale : Bool
deriving DecidableEq

/-- Embeds `parseInt(s, 10)`: optional sign and leading decimal digits after
leading whitespace, `none` for NaN. -/
def jsParseInt (s : String) : Option Int :=
  let cs := s.toList.dropWhile jsIsWhitespace
  let signDigits : Int × List Char :=
    match cs with
    | '-' :: rest => (-1, rest)
    | '+' :: rest => (1, rest)
    | _ => (1, cs)
  let digits := signDigits.2.takeWhile (fun c => c.isDigit)
  if digits = [] then none
  else some (signDigits.1 *
    (digits.foldl (fun n c => n * 10 + (c.toNat - ('0').toNat)) 0 : Nat))

/-- Embeds `getTabIdFromPath`. -/
def getTabIdFromPath : List String → Option Int
  | "tabs" :: id :: _ => jsParseInt id
  | "windows" :: _ :: id :: _ => jsParseInt id
  | _ => none

/-- Embeds `getDomStartIndex` (`none` stands for the source's `-1`). -/
def getDomStartIndex : List String → Option Nat
  | "tabs" :: _ :: _ => some 2
  | "windows" :: _ :: _ :: _ => some 3
  | _ => none

def pageChangedNotice (n : Nat) : String :=
  "\x1b[33m(page changed — tree refreshed, " ++ toString n ++
    " nodes, path reset to tab root)\x1b[0m\r\n"

def autoRefreshNote (n : Nat) : String :=
  "\x1b[90m(tree auto-refreshed, " ++ toString n ++ " nodes)\x1b[0m\r\n"

/-- Embeds `ensureFreshTree`: when stale, re-fetch (`fetched` is the new
snapshot), and reset the DOM portion of the path exactly when the current
leaf node id is truthy and absent from the new map. -/
def ensureFreshTree (st : KernelState) (fetched : List AXNode) :
    KernelState × String :=
  if st.treeStale = false then (st, "")
  else
    let m := buildNodeMap fetched
    let st0 : KernelState := { st with treeStale := false, nodeMap := m }
    match st.axNodeIds.getLast? with
    | some currentId =>
      if currentId ≠ "" ∧ List.lookup currentId m = none then
        let path1 :=
          match getDomStartIndex st.path with
          | some d => st.path.take d
          | none => st.path
        ({ st0 with
            path := path1
            axNodeIds := match findRootNode m with
              | some r => [r.nodeId]
              | none => [] },
         pageChangedNotice m.length)
      else (st0, autoRefreshNote m.length)
    | none => (st0, autoRefreshNote m.length)

/-- Tab data `resolveTabTarget`/`chrome.tabs.get` would deliver. -/
structure TabInfo where
  tabId : Int
  title : String
  url : String

/-- Effects consulted during `cd` navigation. -/
structure BrowserOracle where
  fetched : List AXNode
  attach : Except String Unit
  resolveTab : String → Except String TabInfo
  windowExists : String → Bool

/-- Embeds `cdpSwitchToTab` (already-attached fast path, else attach,
re-fetch, reset the chain to the snapshot root). -/
def cdpSwitchToTab (st : KernelState) (b : BrowserOracle) (tabId : Int) :
    Except String KernelState :=
  if st.activeTabId = some tabId ∧ st.nodeMap ≠ [] then Except.ok st
  else
    match b.attach with
    | Except.error e => Except.error e
    | Except.ok _ =>
      let m := buildNodeMap b.fetched
      Except.ok { st with
        activeTabId := some tabId
        nodeMap := m
        axNodeIds := match findRootNode m with
          | some r => [r.nodeId]
          | none => [] }

def enteredTabMsg (tabId : Int) (title url : String) (nodeCount iframeCount : Nat) :
    String :=
  let base := "\x1b[32m✓ Entered tab " ++ toString tabId ++
    "\x1b[0m\r\n  \x1b[37mTitle: " ++ title ++
    "\x1b[0m\r\n  \x1b[37mURL:   " ++ url ++
    "\x1b[0m\r\n  \x1b[90mAX Nodes: " ++ toString nodeCount ++ "\x1b[0m"
  (if 0 < iframeCount then
    base ++ "\r\n  \x1b[90mIframes: " ++ toString iframeCount ++ "\x1b[0m"
   else base) ++ "\r\n"

def countIframes (m : NodeMap) : Nat :=
  (m.filter (fun p => p.2.role.getD ("") == "Iframe" ||
    p.2.role.getD ("") == "IframePresentational")).length

/-- Embeds `enterTab`: push the tab id segment, then attach and load the
tree; on an attach failure the pushed segment remains (as in the source,
where the push precedes the awaited attach inside the `try`). -/
def enterTab (st : KernelState) (b : BrowserOracle) (target : String) :
    KernelState × String :=
  match b.resolveTab target with
  | Except.error e => (st, "\x1b[31mcd: " ++ e ++ "\x1b[0m")
  | Except.ok info =>
    let st1 : KernelState := { st with path := st.path ++ [toString info.tabId] }
    match cdpSwitchToTab st1 b info.tabId with
    | Except.error e => (st1, "\x1b[31mcd: " ++ e ++ "\x1b[0m")
    | Except.ok st2 =>
      (st2, enteredTabMsg info.tabId info.title info.url st2.nodeMap.length
        (countIframes st2.nodeMap))

/-- Embeds `navigateOneSegment`.  The returned string is the source's return
value: empty on success, otherwise the error (or tab-entry) message that makes
`navigateSegments` stop. -/
def navigateOneSegment (st : KernelState) (b : BrowserOracle) (segment : String) :
    KernelState × String :=
  match getTabIdFromPath st.path with
  | some tabId =>
    let attachRes : Except String KernelState :=
      if st.activeTabId ≠ some tabId ∨ st.nodeMap = [] then cdpSwitchToTab st b tabId
      else Except.ok st
    match attachRes with
    | Except.error e =>
      (st, "\x1b[31mFailed to attach to tab " ++ toString tabId ++ ": " ++ e ++ "\x1b[0m")
    | Except.ok st1 =>
      let st2 := (ensureFreshTree st1 b.fetched).1
      match st2.axNodeIds.getLast? with
      | none => (st2, "\x1b[31mError: No DOM context. Navigate into a tab first.\x1b[0m")
      | some currentId =>
        match findChildByName currentId segment st2.nodeMap with
        | none => (st2, "\x1b[31mcd: " ++ segment ++ ": No such directory\x1b[0m")
        | some found =>
          if found.isDirectory = false then
            (st2, "\x1b[31mcd: " ++ segment ++ ": Not a directory (type: [x] " ++
              found.role ++ ")\x1b[0m")
          else
            ({ st2 with
                path := st2.path ++ [found.name]
                axNodeIds := st2.axNodeIds ++ [found.axNodeId] }, "")
  | none =>
    if st.path.length = 0 then
      if segment = "tabs" ∨ segment = "windows" then
        ({ st with path := st.path ++ [segment] }, "")
      else
        (st, "\x1b[31mcd: " ++ segment ++ ": No such directory (try 'tabs' or 'windows')\x1b[0m")
    else if st.path.headD ("") = "tabs" ∧ st.path.length = 1 then
      enterTab st b segment
    else if st.path.headD ("") = "windows" ∧ st.path.length = 1 then
      match jsParseInt segment with
      | none => (st, "\x1b[31mcd: " ++ segment ++ ": Invalid window ID\x1b[0m")
      | some _ =>
        if b.windowExists segment then ({ st with path := st.path ++ [segment] }, "")
        else (st, "\x1b[31mcd: " ++ segment ++ ": Window not found\x1b[0m")
    else if st.path.headD ("") = "windows" ∧ st.path.length = 2 then
      enterTab st b segment
    else (st, "\x1b[31mcd: " ++ segment ++ ": Cannot navigate deeper\x1b[0m")

/-- Embeds `navigateSegments`: `.` skipped; `..` pops one DOM level and, when
that reaches the tab entry point, pops out of the tab entirely (browser-level
`..` pops one browser segment); any other segment goes through
`navigateOneSegment`, a non-empty result stopping the walk. -/
def navigateSegments (b : BrowserOracle) : KernelState → List String → KernelState × String
  | st, [] => (st, "")
  | st, seg :: rest =>
    if seg = "." then navigateSegments b st rest
    else if seg = ".." then
      if st.path.length = 0 then navigateSegments b st rest
      else
        let inDom : Option Nat :=
          match getTabIdFromPath st.path, getDomStartIndex st.path with
          | some _, some d => if d < st.path.length then some d else none
          | _, _ => none
        match inDom with
        | some d =>
          let st1 : KernelState :=
            { st with path := st.path.dropLast, axNodeIds := st.axNodeIds.dropLast }
          let st2 : KernelState :=
            if st1.path.length = d then
              { st1 with path := st1.path.dropLast, axNodeIds := [] }
            else st1
          navigateSegments b st2 rest
        | none =>
          navigateSegments b { st with path := st.path.dropLast, axNodeIds := [] } rest
    else
      let r := navigateOneSegment st b seg
      if r.2 ≠ "" then r else navigateSegments b r.1 rest

/-! ## click / focus / type handlers -/

/-- Effects consulted by the mutating handlers. -/
structure ActionOracle where
  fetched : List AXNode
  clickDirect : Bool
  clickCoords : Except String Unit
  focusCall : Except String Unit
  typeCall : Except String Unit

/-- Rendering of a thrown handler error by `executeCommand`'s catch block. -/
def thrownErr (msg : String) : String :=
  "\x1b[31mError: " ++ msg ++ "\x1b[0m"

/-- Embeds `ensureInsideTab` (`none` = no throw).  Note the source's truthiness
checks: a tab id of `0` and an empty node map both count as lost context. -/
def ensureInsideTabCheck (st : KernelState) : Option String :=
  if getTabIdFromPath st.path = none then
    some "This command requires a tab context. Use 'cd tabs/<id>' to enter a tab, or 'open <url>' to open one."
  else if (match st.activeTabId with | none => true | some i => i == 0) || st.nodeMap.isEmpty then
    some "Tab context lost. Navigate to a tab with 'cd tabs/<id>'."
  else none

/-- JS truthiness of `match.backendDOMNodeId` (absent or `0` is falsy). -/
def backendMissing (v : VFSNode) : Bool :=
  match v.backendDOMNodeId with
  | none => true
  | some n => n = 0

def clickedMsg (tag name role : String) : String :=
  "\x1b[32m✓ Clicked" ++ tag ++ ": " ++ name ++ " (" ++ role ++
    ")\x1b[0m\r\n\x1b[90m(tree will auto-refresh on next command)\x1b[0m"

/-- Embeds `handleClick`: resolve the target among the current node's mapped
children, click via the backing element (falling back to coordinates), and on
success set the staleness flag. -/
def handleClick (st : KernelState) (a : ActionOracle) (args : List String) :
    KernelState × String :=
  match ensureInsideTabCheck st with
  | some e => (st, thrownErr e)
  | none =>
    let st1 := (ensureFreshTree st a.fetched).1
    if args.length = 0 then (st1, "\x1b[31mUsage: click <name> (see click --help)\x1b[0m")
    else
      let targetName := args.headD ("")
      match st1.axNodeIds.getLast? with
      | none => (st1, thrownErr ("No DOM context. Navigate into a tab first."))
      | some currentId =>
        match findChildByName currentId targetName st1.nodeMap with
        | none => (st1, "\x1b[31mclick: " ++ targetName ++ ": No such element\x1b[0m")
        | some found =>
          if backendMissing found then
            (st1, "\x1b[31mclick: " ++ targetName ++ ": No DOM node backing (AX-only node)\x1b[0m")
          else if a.clickDirect then
            ({ st1 with treeStale := true }, clickedMsg ("") found.name found.role)
          else
            match a.clickCoords with
            | Except.ok _ =>
              ({ st1 with treeStale := true }, clickedMsg (" (coords)") found.name found.role)
            | Except.error e => (st1, "\x1b[31mclick failed: " ++ e ++ "\x1b[0m")

/-- Embeds `handleFocus`: same resolution, focuses the backing element, and —
unlike `handleClick` — never touches the staleness flag. -/
def handleFocus (st : KernelState) (a : ActionOracle) (args : List String) :
    KernelState × String :=
  match ensureInsideTabCheck st with
  | some e => (st, thrownErr e)
  | none =>
    let st1 := (ensureFreshTree st a.fetched).1
    if args.length = 0 then (st1, "\x1b[31mUsage: focus <name> (see focus --help)\x1b[0m")
    else
      let targetName := args.headD ("")
      match st1.axNodeIds.getLast? with
      | none => (st1, thrownErr ("No DOM context. Navigate into a tab first."))
      | some currentId =>
        match findChildByName currentId targetName st1.nodeMap with
        | none => (st1, "\x1b[31mfocus: " ++ targetName ++ ": No such element\x1b[0m")
        | some found =>
          if backendMissing found then
            (st1, "\x1b[31mfocus: " ++ targetName ++ ": No DOM node backing\x1b[0m")
          else
            match a.focusCall with
            | Except.ok _ => (st1, "\x1b[32m✓ Focused: " ++ found.name ++ "\x1b[0m")
            | Except.error e => (st1, thrownErr e)

/-- Embeds `handleType`: joins the arguments, sends key input, and — unlike
`handleClick` — neither refreshes nor touches the staleness flag. -/
def handleType (st : KernelState) (a : ActionOracle) (args : List String) :
    KernelState × String :=
  match ensureInsideTabCheck st with
  | some e => (st, thrownErr e)
  | none =>
    if args.length = 0 then (st, "\x1b[31mUsage: type <text> (see type --help)\x1b[0m")
    else
      let text := String.intercalate (" ") args
      match a.typeCall with
      | Except.ok _ => (st, "\x1b[32m✓ Typed " ++ toString text.length ++ " characters\x1b[0m")
      | Except.error e => (st, thrownErr e)

/-! ## Kernel fixtures for the scenario claims -/

/-- A small snapshot: a root with a `nav` container child and a `submit`
button leaf child. -/
def exNavMap : NodeMap := buildNodeMap
  [{ nodeId := "r", role := some ("RootWebArea"), childIds := some [("n"), ("s")] },
   { nodeId := "n", role := some ("navigation"), name := some ("nav"), childIds := some [] },
   { nodeId := "s", role := some ("button"), name := some ("submit"), backendDOMNodeId := some 5 }]

/-- A session attached to tab 7, fresh tree, at the tab root. -/
def exTabState : KernelState := ⟨["tabs", "7"], ["r"], some 7, exNavMap, false⟩

/-- A browser oracle that is never actually consulted on these runs. -/
def exOracle : BrowserOracle :=
  ⟨[], Except.ok (), fun _ => Except.error ("unused"), fun _ => false⟩

/-- An action oracle on which every CDP call succeeds. -/
def exActions : ActionOracle := ⟨[], true, Except.ok (), Except.ok (), Except.ok ()⟩

/-- The mapped `submit` button entry of `exNavMap`. -/
def exSubmitEntry : VFSNode := ⟨"s", some 5, "submit_btn", "button", none, false⟩

/-- A stale session whose node-id chain ends in the empty string. -/
def exStaleEmptyId : KernelState := ⟨["tabs", "7", "dead"], [""], some 7, exNavMap, true⟩

/-- A stale session whose leaf id `old` is invalidated by the new snapshot. -/
def exStaleState : KernelState := ⟨["tabs", "7", "x"], ["old"], some 7, exNavMap, true⟩

/-- The freshly fetched snapshot: a single new root. -/
def exNewSnap : List AXNode := [{ nodeId := "r2", role := some ("RootWebArea") }]

/-! ## C3: staleness-triggered refresh -/

/-- C3 counterexample: a stale session whose node-id chain's leaf is the empty
string.  The leaf is absent from the newly fetched snapshot, yet the code
preserves the path and chain verbatim and emits the plain auto-refresh note
instead of resetting to the snapshot root with the reset notice (the source
guards the reset with JS truthiness of the id, so `""` never triggers it). -/
theorem staleRefreshEmptyLeafIdNotReset :
    exStaleEmptyId.treeStale = true ∧
    exStaleEmptyId.axNodeIds.getLast? = some ("") ∧
    List.lookup ("") (buildNodeMap exNewSnap) = none ∧
    (ensureFreshTree exStaleEmptyId exNewSnap).1.path = exStaleEmptyId.path ∧
    (ensureFreshTree exStaleEmptyId exNewSnap).1.axNodeIds = exStaleEmptyId.axNodeIds ∧
    (ensureFreshTree exStaleEmptyId exNewSnap).2 =
      autoRefreshNote (buildNodeMap exNewSnap).length := by
  decide

/-- C3 (amended): on a staleness-triggered refresh, when the chain's leaf id is
non-empty: if it is absent from the new snapshot the DOM portion of the path
is cut to the browser prefix, the chain is reset to the new root id, and the
reset notice is returned; if it is still present, path and chain are preserved
verbatim (only the plain auto-refresh note is returned). -/
theorem ensureFreshTreeBranches (st : KernelState) (fetched : List AXNode) (cid : String)
    (hstale : st.treeStale = true)
    (hlast : st.axNodeIds.getLast? = some cid)
    (hne : cid ≠ "") :
    (∀ root d, List.lookup cid (buildNodeMap fetched) = none →
      findRootNode (buildNodeMap fetched) = some root →
      getDomStartIndex st.path = some d →
      (ensureFreshTree st fetched).1.path = st.path.take d ∧
      (ensureFreshTree st fetched).1.axNodeIds = [root.nodeId] ∧
      (ensureFreshTree st fetched).2 = pageChangedNotice (buildNodeMap fetched).length) ∧
    (∀ n, List.lookup cid (buildNodeMap fetched) = some n →
      (ensureFreshTree st fetched).1.path = st.path ∧
      (ensureFreshTree st fetched).1.axNodeIds = st.axNodeIds ∧
      (ensureFreshTree st fetched).2 = autoRefreshNote (buildNodeMap fetched).length) := by
  constructor
  · intro root d h1 h2 h3
    simp [ensureFreshTree, hstale, hlast, hne, h1, h2, h3]
  · intro n h
    simp [ensureFreshTree, hstale, hlast, h]

theorem ensureFreshTreeBranches_witness :
    (ensureFreshTree exStaleState exNewSnap).1.path = ["tabs", "7"] ∧
    (ensureFreshTree exStaleState exNewSnap).1.axNodeIds = ["r2"] ∧
    (ensureFreshTree exStaleState exNewSnap).2 =
      pageChangedNotice (buildNodeMap exNewSnap).length :=
  (ensureFreshTreeBranches exStaleState exNewSnap ("old") rfl rfl (by decide)).1
    { nodeId := "r2", role := some ("RootWebArea") } 2 (by decide) (by decide) (by decide)

/-! ## C4: the cd scenario -/

/-- C4 counterexample: from the tab root, `cd nav` followed by `cd ..` does
not return to the tab root — popping the last DOM segment also pops the tab
id segment, leaving the session at the browser-level `~/tabs` listing, no
longer inside any tab. -/
theorem cdUpExitsTab :
    (navigateSegments exOracle
        (navigateSegments exOracle exTabState [("nav")]).1 [("..")]).1.path = [("tabs")] ∧
    getTabIdFromPath (navigateSegments exOracle
        (navigateSegments exOracle exTabState [("nav")]).1 [("..")]).1.path = none ∧
    ([("tabs")] : List String) ≠ exTabState.path := by
  decide

/-- C4 (amended): inside a tab with children `nav` (container) and
`submit_btn` (leaf), `cd submit_btn` fails with the Not-a-directory error and
leaves path and node-id chain unchanged; `cd nav` descends, and the following
`cd ..` exits the tab entirely: the path becomes the browser-level `tabs`
listing with an empty node-id chain. -/
theorem cdScenario :
    (navigateSegments exOracle exTabState [("submit_btn")]).2 =
      "\x1b[31mcd: submit_btn: Not a directory (type: [x] button)\x1b[0m" ∧
    (navigateSegments exOracle exTabState [("submit_btn")]).1 = exTabState ∧
    (navigateSegments exOracle exTabState [("nav")]).1.path = ["tabs", "7", "nav"] ∧
    (navigateSegments exOracle exTabState [("nav")]).1.axNodeIds = ["r", "n"] ∧
    (navigateSegments exOracle
        (navigateSegments exOracle exTabState [("nav")]).1 [("..")]).1.path = [("tabs")] ∧
    (navigateSegments exOracle
        (navigateSegments exOracle exTabState [("nav")]).1 [("..")]).1.axNodeIds = [] := by
  decide

/-! ## C6: staleness marking by the mutating handlers -/

/-- C6 counterexample: a successful `focus` and a successful `type` leave the
staleness flag unset (here `false` before and after), contradicting the claim
that all three mutating operations mark the snapshot stale. -/
theorem focusAndTypeLeaveTreeFresh :
    (handleFocus exTabState exActions [("submit_btn")]).2 =
      "\x1b[32m✓ Focused: submit_btn\x1b[0m" ∧
    (handleFocus exTabState exActions [("submit_btn")]).1.treeStale = false ∧
    (handleType exTabState exActions [("hi")]).2 =
      "\x1b[32m✓ Typed 2 characters\x1b[0m" ∧
    (handleType exTabState exActions [("hi")]).1.treeStale = false := by
  decide

/-- C6 (amended): for every resolved target with a backing element, a
successful `click` (direct or coordinate fallback) sets the staleness flag,
while `focus` and `type` never do: starting from a fresh tree, the flag is
still clear after them, even on success. -/
theorem clickMarksStaleFocusTypeDoNot
    (st : KernelState) (a : ActionOracle) (args : List String) (found : VFSNode) (cid : String)
    (hfresh : st.treeStale = false)
    (hin : ensureInsideTabCheck st = none)
    (hargs : args ≠ [])
    (hcur : st.axNodeIds.getLast? = some cid)
    (hfind : findChildByName cid (args.headD ("")) st.nodeMap = some found)
    (hback : backendMissing found = false) :
    ((a.clickDirect = true ∨ a.clickCoords = Except.ok ()) →
      (handleClick st a args).1.treeStale = true) ∧
    (handleFocus st a args).1.treeStale = false ∧
    (handleType st a args).1.treeStale = false ∧
    (a.focusCall = Except.ok () →
      (handleFocus st a args).2 = "\x1b[32m✓ Focused: " ++ found.name ++ "\x1b[0m") ∧
    (a.typeCall = Except.ok () →
      (handleType st a args).2 =
        "\x1b[32m✓ Typed " ++ toString (String.intercalate (" ") args).length ++
          " characters\x1b[0m") := by
  cases args with
  | nil => exact absurd rfl hargs
  | cons a0 as =>
    have hfr : ensureFreshTree st a.fetched = (st, "") := by
      simp [ensureFreshTree, hfresh]
    simp only [List.headD] at hfind
    refine ⟨?_, ?_, ?_, ?_, ?_⟩
    · intro h
      by_cases hd : a.clickDirect = true
      · simp [handleClick, hin, hfr, hcur, hfind, hback, hd]
      · rcases h with h | h
        · exact absurd h hd
        · simp [handleClick, hin, hfr, hcur, hfind, hback, hd, h]
    · cases hfc : a.focusCall <;>
        simp [handleFocus, hin, hfr, hcur, hfind, hback, hfc, hfresh]
    · cases htc : a.typeCall <;>
        simp [handleType, hin, htc, hfresh]
    · intro h
      simp [handleFocus, hin, hfr, hcur, hfind, hback, h]
    · intro h
      simp [handleType, hin, h]

theorem clickMarksStaleFocusTypeDoNot_witness :
    (handleClick exTabState exActions [("submit_btn")]).1.treeStale = true ∧
    (handleFocus exTabState exActions [("submit_btn")]).1.treeStale = false ∧
    (handleType exTabState exActions [("submit_btn")]).1.treeStale = false :=
  have h := clickMarksStaleFocusTypeDoNot exTabState exActions [("submit_btn")]
    exSubmitEntry ("r") rfl (by decide) (by decide) (by decide) (by decide) (by decide)
  ⟨h.1 (Or.inl rfl), h.2.1, h.2.2.1⟩

/-! ## C2: sibling-name deduplication -/

/-- Sibling set whose accessible names sanitize to `a`, `a`, `a_2`. -/
def exDupMap : NodeMap := buildNodeMap
  [{ nodeId := "p", role := some ("section"), childIds := some [("n1"), ("n2"), ("n3")] },
   { nodeId := "n1", role := some ("section"), name := some ("a") },
   { nodeId := "n2", role := some ("section"), name := some ("a") },
   { nodeId := "n3", role := some ("section"), name := some ("a_2") }]

/-- C2: the mapping pass over siblings named `a`, `a`, `a_2` produces the
entry names `a`, `a_2`, `a_2` — two siblings share the name `a_2`, because
`deduplicateName` counts only base names already emitted and never records
the suffixed name it just generated.  This contradicts the mapper's own
documented guarantee ("Ensure unique names by appending _2, _3, etc."). -/
theorem siblingNamesCollide :
    (getChildVFSNodes ("p") exDupMap).map (fun v => v.name) = ["a", "a_2", "a_2"] ∧
    ¬ ((getChildVFSNodes ("p") exDupMap).map (fun v => v.name)).Nodup := by
  decide

/-! ## C9: fallback naming -/

/-- C9 counterexample: a button with no accessible name and no description is
named `button_btn` — the role with its suffix only; the raw node id `42` does
not occur in the generated name (the source appends the id only when the role
has no suffix: `role + (suffix || "_" + nodeId)`). -/
theorem buttonFallbackNameHasNoId :
    generateNodeName { nodeId := "42", role := some ("button") } = "button_btn" ∧
    hasSegAux (("42").toList) (("button_btn").toList) = false := by
  decide

/-- C9 (amended): when both the accessible name and the description sanitize
to the empty string, the generated name is the role followed by its
role-specific suffix when one exists, and otherwise the role followed by an
underscore and the raw node id — the node id appears only for roles without a
suffix. -/
theorem fallbackNameRoleSuffixOrId (node : AXNode)
    (h1 : sanitize (node.name.getD ("")) = "")
    (h2 : sanitize (node.description.getD ("")) = "") :
    generateNodeName node =
      node.role.getD ("unknown") ++
        (if roleSuffix (node.role.getD ("unknown")) ≠ "" then
          roleSuffix (node.role.getD ("unknown"))
        else "_" ++ node.nodeId) := by
  simp [generateNodeName, h1, h2]

theorem fallbackNameRoleSuffixOrId_witness :
    generateNodeName { nodeId := "42", role := some ("button") } =
      "button" ++ (if roleSuffix ("button") ≠ "" then roleSuffix ("button")
        else "_" ++ "42") :=
  fallbackNameRoleSuffixOrId { nodeId := "42", role := some ("button") }
    (by decide) (by decide)

/-! ## C7: path resolution -/

/-- Snapshot in which a leaf (`button`) entry has a mapped child. -/
def exLeafMap : NodeMap := buildNodeMap
  [{ nodeId := "s", role := some ("section"), childIds := some [("b")] },
   { nodeId := "b", role := some ("button"), name := some ("x"), childIds := some [("l")] },
   { nodeId := "l", role := some ("link"), name := some ("y") }]

/-- C7 counterexample: `x_btn` maps to a non-container (leaf) entry, yet the
multi-segment path `x_btn/y_link` resolves successfully through it — the
resolver never checks `isContainer` on intermediate segments. -/
theorem resolveDescendsThroughLeaf :
    (findChildByName ("s") ("x_btn") exLeafMap).map (fun v => v.isDirectory) = some false ∧
    (resolveByPath ("s") ("x_btn/y_link") exLeafMap).map (fun v => v.name) = some ("y_link") := by
  decide

/-- First-unmatched test: walks the segments exactly as the resolver does and
reports whether some segment fails to match among its parent's mapped
children. -/
def firstUnmatched (m : NodeMap) : String → List String → Bool
  | _, [] => false
  | pid, s :: rest =>
    match findChildByName pid s m with
    | none => true
    | some e => firstUnmatched m e.axNodeId rest

theorem resolveSegsLoop_none_iff (m : NodeMap) :
    ∀ (segs : List String) (pid : String) (acc : Option VFSNode), segs ≠ [] →
      (resolveSegsLoop m pid segs acc = none ↔ firstUnmatched m pid segs = true) := by
  intro segs
  induction segs with
  | nil => intro pid acc h; exact absurd rfl h
  | cons s rest ih =>
    intro pid acc _
    cases hf : findChildByName pid s m with
    | none => simp [resolveSegsLoop, firstUnmatched, hf]
    | some r =>
      cases rest with
      | nil => simp [resolveSegsLoop, firstUnmatched, hf]
      | cons t ts =>
        simp only [resolveSegsLoop, firstUnmatched, hf]
        exact ih r.axNodeId (some r) (by simp)

/-- C7 (amended): resolution fails (returns no entry) exactly when the path
has no segments or some segment in sequence is unmatched among its parent's
mapped children.  In particular the resolver applies no container check: a
resolved leaf with path remaining is descended into (its mapped children are
consulted), and such a path resolves whenever every segment matches. -/
theorem resolveByPathFailsOnFirstUnmatched (startId nameOrPath : String) (m : NodeMap) :
    resolveByPath startId nameOrPath m = none ↔
      ((jsSplit '/' nameOrPath).filter (fun s => s ≠ "") = [] ∨
        firstUnmatched m startId
          ((jsSplit '/' nameOrPath).filter (fun s => s ≠ "")) = true) := by
  have hb : resolveByPath startId nameOrPath m =
      (let segs := (jsSplit '/' nameOrPath).filter (fun s => s ≠ "")
       if segs.length = 0 then none
       else if segs.length = 1 then findChildByName startId (segs.headD ("")) m
       else resolveSegsLoop m startId segs none) := rfl
  rw [hb]
  generalize (jsSplit '/' nameOrPath).filter (fun s => s ≠ "") = segs
  cases segs with
  | nil => simp
  | cons a rest =>
    cases rest with
    | nil =>
      cases hf : findChildByName startId a m <;>
        simp [firstUnmatched, hf]
    | cons b ts =>
      have hlen1 : (a :: b :: ts).length ≠ 0 := by simp
      have hlen2 : (a :: b :: ts).length ≠ 1 := by simp
      simp only [hlen1, hlen2, if_false, if_neg hlen1, if_neg hlen2]
      rw [resolveSegsLoop_none_iff m (a :: b :: ts) startId none (by simp)]
      simp

/-! ## C8: flattening idempotence — map lemmas -/

/-- Well-formedness every `buildNodeMap` result enjoys: entries are keyed by
their node's id. -/
def mapWF (m : NodeMap) : Prop :=
  ∀ k n, List.lookup k m = some n → n.nodeId = k

theorem mapSet_lookup (m : NodeMap) (k' : String) (v : AXNode) (k : String) :
    List.lookup k (mapSet m k' v) = if k = k' then some v else List.lookup k m := by
  induction m with
  | nil =>
    by_cases h : k = k'
    · simp [mapSet, List.lookup, h]
    · have hb : (k == k') = false := by simpa using h
      simp [mapSet, List.lookup, hb, h]
  | cons p rest ih =>
    obtain ⟨pk, pv⟩ := p
    simp only [mapSet]
    by_cases h1 : pk = k'
    · subst h1
      simp only [if_pos rfl]
      by_cases h2 : k = pk
      · subst h2
        simp [List.lookup]
      · have hb : (k == pk) = false := by simpa using h2
        simp [List.lookup, hb, h2]
    · simp only [if_neg h1]
      by_cases h2 : k = pk
      · subst h2
        have hne : k ≠ k' := h1
        simp [List.lookup, hne]
      · have hb : (k == pk) = false := by simpa using h2
        simp [List.lookup, hb, ih]

theorem buildNodeMap_step_wf (m : NodeMap) (n : AXNode) (h : mapWF m) :
    mapWF (mapSet m n.nodeId n) := by
  intro k x hk
  rw [mapSet_lookup] at hk
  by_cases hkk : k = n.nodeId
  · rw [if_pos hkk] at hk
    cases hk
    exact hkk.symm
  · rw [if_neg hkk] at hk
    exact h k x hk

theorem buildNodeMap_foldl_wf (l : List AXNode) :
    ∀ m : NodeMap, mapWF m →
      mapWF (l.foldl (fun m n => mapSet m n.nodeId n) m) := by
  induction l with
  | nil => intro m h; exact h
  | cons n rest ih =>
    intro m h
    exact ih _ (buildNodeMap_step_wf m n h)

theorem buildNodeMap_wf (l : List AXNode) : mapWF (buildNodeMap l) :=
  buildNodeMap_foldl_wf l [] (by intro k n h; simp [List.lookup] at h)

theorem lookup_mem (l : NodeMap) (k : String) (v : AXNode)
    (h : List.lookup k l = some v) : (k, v) ∈ l := by
  induction l with
  | nil => simp [List.lookup] at h
  | cons p rest ih =>
    obtain ⟨pk, pv⟩ := p
    by_cases hk : k = pk
    · subst hk
      simp [List.lookup] at h
      simp [h]
    · have hb : (k == pk) = false := by simpa using hk
      simp [List.lookup, hb] at h
      exact List.mem_cons_of_mem _ (ih h)

theorem foldl_lookup_stable (l : List AXNode) (k : String) :
    ∀ m0 : NodeMap, (∀ n ∈ l, n.nodeId ≠ k) →
      List.lookup k (l.foldl (fun m n => mapSet m n.nodeId n) m0) = List.lookup k m0 := by
  induction l with
  | nil => intro m0 _; rfl
  | cons n rest ih =>
    intro m0 h
    have h1 : n.nodeId ≠ k := h n (List.mem_cons_self n rest)
    have h2 : ∀ x ∈ rest, x.nodeId ≠ k := fun x hx => h x (List.mem_cons_of_mem _ hx)
    calc List.lookup k ((n :: rest).foldl (fun m x => mapSet m x.nodeId x) m0)
        = List.lookup k (rest.foldl (fun m x => mapSet m x.nodeId x) (mapSet m0 n.nodeId n)) := rfl
      _ = List.lookup k (mapSet m0 n.nodeId n) := ih _ h2
      _ = List.lookup k m0 := by
          rw [mapSet_lookup, if_neg (fun hc => h1 hc.symm)]

theorem foldl_lookup_mem (l : List AXNode) :
    ∀ (m0 : NodeMap) (n : AXNode), n ∈ l →
      (∀ n1 ∈ l, ∀ n2 ∈ l, n1.nodeId = n2.nodeId → n1 = n2) →
      List.lookup n.nodeId (l.foldl (fun m x => mapSet m x.nodeId x) m0) = some n := by
  induction l with
  | nil => intro m0 n h; simp at h
  | cons hd rest ih =>
    intro m0 n hmem hcons
    have hconsRest : ∀ n1 ∈ rest, ∀ n2 ∈ rest, n1.nodeId = n2.nodeId → n1 = n2 :=
      fun n1 h1 n2 h2 => hcons n1 (List.mem_cons_of_mem _ h1) n2 (List.mem_cons_of_mem _ h2)
    rcases List.mem_cons.1 hmem with rfl | hrest
    · by_cases hre : ∃ n' ∈ rest, n'.nodeId = n.nodeId
      · obtain ⟨n', hn', heq⟩ := hre
        have : n' = n := hcons n' (List.mem_cons_of_mem _ hn') n (List.mem_cons_self _ _) heq
        subst this
        exact ih _ n' hn' hconsRest
      · push_neg at hre
        calc List.lookup n.nodeId ((n :: rest).foldl (fun m x => mapSet m x.nodeId x) m0)
            = List.lookup n.nodeId (rest.foldl (fun m x => mapSet m x.nodeId x) (mapSet m0 n.nodeId n)) := rfl
          _ = List.lookup n.nodeId (mapSet m0 n.nodeId n) := foldl_lookup_stable rest _ _ hre
          _ = some n := by rw [mapSet_lookup, if_pos rfl]
    · exact ih _ n hrest hconsRest

theorem foldl_add_init (l : NodeMap) :
    ∀ a : Nat, l.foldl (fun acc q => acc + (q.2.childIds.getD ([])).length) a =
      a + (l.map (fun q => (q.2.childIds.getD ([])).length)).sum := by
  induction l with
  | nil => intro a; simp
  | cons p rest ih =>
    intro a
    simp [List.foldl_cons, ih, Nat.add_assoc]

/-- Any single entry's child count is dominated by `nodeMapFuel`. -/
theorem nodeMapFuel_ge (m : NodeMap) (p : String × AXNode) (h : p ∈ m) :
    (p.2.childIds.getD ([])).length + 4 ≤ nodeMapFuel m := by
  unfold nodeMapFuel
  rw [foldl_add_init]
  have h1 : (p.2.childIds.getD ([])).length ≤
      (m.map (fun q => (q.2.childIds.getD ([])).length)).sum :=
    List.single_le_sum (fun x _ => Nat.zero_le x) _ (List.mem_map_of_mem _ h)
  omega

/-! ## C8: properties of the node-to-entry conversion -/

theorem axNodeToVFSNode_axId (n : AXNode) (v : VFSNode)
    (h : axNodeToVFSNode n = some v) : v.axNodeId = n.nodeId := by
  simp only [axNodeToVFSNode] at h
  split at h
  · simp at h
  · cases h
    rfl

theorem axNodeToVFSNode_of_not_flatten (n : AXNode) (h : shouldFlattenNode n = false) :
    axNodeToVFSNode n = some
      { axNodeId := n.nodeId
        backendDOMNodeId := n.backendDOMNodeId
        name := generateNodeName n
        role := n.role.getD ("")
        value := n.value
        isDirectory := isContainerNode n } := by
  simp only [shouldFlattenNode] at h
  split at h
  · simp at h
  · split at h
    · simp at h
    · simp only [axNodeToVFSNode]
      split
      · simp_all
      · rfl

/-! ## C8: the emission fold and the traversal invariant -/

/-- One emission step of the traversal: convert the node and deduplicate its
name against the running `seenNames` map. -/
def emitStep (acc : List VFSNode × SeenMap) (n : AXNode) : List VFSNode × SeenMap :=
  match axNodeToVFSNode n with
  | none => acc
  | some v =>
    let r := deduplicateName v.name acc.2
    (acc.1 ++ [{ v with name := r.1 }], r.2)

/-- The results/seen pair obtained by emitting a node sequence in order. -/
def emitFold (ns : List AXNode) : List VFSNode × SeenMap :=
  ns.foldl emitStep ([], [])

/-- The nodes a traversal may have emitted: present in the map under their own
id and not flattenable. -/
def goodNodes (m : NodeMap) (ns : List AXNode) : Prop :=
  ∀ n ∈ ns, List.lookup n.nodeId m = some n ∧ shouldFlattenNode n = false

/-- Traversal invariant: the accumulated results and `seenNames` map are the
emission fold of some list of good nodes. -/
def TravInv (m : NodeMap) (st : TravSt) : Prop :=
  ∃ ns : List AXNode, goodNodes m ns ∧
    st.results = (emitFold ns).1 ∧ st.seen = (emitFold ns).2

theorem travInv_init (m : NodeMap) : TravInv m ⟨[], [], []⟩ :=
  ⟨[], fun n h => absurd h (List.not_mem_nil n), rfl, rfl⟩

theorem travInv_preserved (fuel : Nat) :
    (∀ (m : NodeMap) (pid : String) (st : TravSt), mapWF m → TravInv m st →
      TravInv m (collectChildren fuel m pid st)) ∧
    (∀ (m : NodeMap) (cids : List String) (st : TravSt), mapWF m → TravInv m st →
      TravInv m (goChildren fuel m cids st)) := by
  induction fuel with
  | zero =>
    constructor
    · intro m pid st _ h
      simpa [collectChildren] using h
    · intro m cids st _ h
      simpa [goChildren] using h
  | succ fuel ih =>
    constructor
    · intro m pid st hwf hinv
      simp only [collectChildren]
      split
      · exact hinv
      · cases hl : List.lookup pid m with
        | none => exact hinv
        | some parent =>
          dsimp only
          cases hc : parent.childIds with
          | none => exact hinv
          | some cids => exact ih.2 m cids _ hwf hinv
    · intro m cids st hwf hinv
      cases cids with
      | nil => simpa [goChildren] using hinv
      | cons c rest =>
        simp only [goChildren]
        apply ih.2 m rest _ hwf
        cases hl : List.lookup c m with
        | none => simpa [hl] using hinv
        | some child =>
          dsimp only
          by_cases hfl : shouldFlattenNode child = true
          · cases hc : child.childIds with
            | none => simpa [hl, hfl, hc] using hinv
            | some l =>
              by_cases hlen : 0 < l.length
              · simpa [hl, hfl, hc, hlen] using ih.1 m c st hwf hinv
              · simpa [hl, hfl, hc, hlen] using hinv
          · have hfl' : shouldFlattenNode child = false := by
              simpa using hfl
            have hconv := axNodeToVFSNode_of_not_flatten child hfl'
            obtain ⟨ns, hg, hr, hs⟩ := hinv
            refine ⟨ns ++ [child], ?_, ?_, ?_⟩
            · intro n hn
              rcases List.mem_append.1 hn with hn | hn
              · exact hg n hn
              · have hn' : n = child := by simpa using hn
                refine ⟨?_, by rw [hn']; exact hfl'⟩
                rw [hn', hwf c child hl]
                exact hl
            · simp [hl, hfl', hconv, emitFold, List.foldl_append, emitStep, hr, hs]
            · simp [hl, hfl', hconv, emitFold, List.foldl_append, emitStep, hr, hs]

/-! ## C8: extraction lemmas and the rerun -/

theorem emitFold_mem_axId (ns : List AXNode) :
    ∀ (acc : List VFSNode × SeenMap) (v : VFSNode),
      v ∈ (List.foldl emitStep acc ns).1 →
      v ∈ acc.1 ∨ ∃ n ∈ ns, v.axNodeId = n.nodeId := by
  induction ns with
  | nil => intro acc v h; exact Or.inl h
  | cons n rest ih =>
    intro acc v h
    rcases ih (emitStep acc n) v h with h1 | ⟨n', hn', he⟩
    · cases hv : axNodeToVFSNode n with
      | none =>
        rw [emitStep, hv] at h1
        exact Or.inl h1
      | some v0 =>
        simp only [emitStep, hv] at h1
        rcases List.mem_append.1 h1 with h1 | h1
        · exact Or.inl h1
        · have hv1 : v = { v0 with name := (deduplicateName v0.name acc.2).1 } := by
            simpa using h1
        
          refine Or.inr ⟨n, List.mem_cons_self n rest, ?_⟩
          rw [hv1]
          exact axNodeToVFSNode_axId n v0 hv
    · exact Or.inr ⟨n', List.mem_cons_of_mem _ hn', he⟩

theorem emitFold_ids :
    ∀ ns : List AXNode, (∀ n ∈ ns, shouldFlattenNode n = false) →
      ∀ acc : List VFSNode × SeenMap,
        ((List.foldl emitStep acc ns).1).map (fun v => v.axNodeId) =
          acc.1.map (fun v => v.axNodeId) ++ ns.map (fun n => n.nodeId) := by
  intro ns
  induction ns with
  | nil => intro _ acc; simp
  | cons n rest ih =>
    intro hf acc
    have hn := hf n (List.mem_cons_self n rest)
    have hconv := axNodeToVFSNode_of_not_flatten n hn
    have hrest : ∀ x ∈ rest, shouldFlattenNode x = false :=
      fun x hx => hf x (List.mem_cons_of_mem _ hx)
    rw [List.foldl_cons, ih hrest]
    simp [emitStep, hconv]

theorem filterMap_lookup_eq (m : NodeMap) :
    ∀ (vs : List VFSNode) (ns : List AXNode),
      vs.map (fun v => v.axNodeId) = ns.map (fun n => n.nodeId) →
      (∀ n ∈ ns, List.lookup n.nodeId m = some n) →
      vs.filterMap (fun v => List.lookup v.axNodeId m) = ns := by
  intro vs
  induction vs with
  | nil =>
    intro ns h _
    have : ns = [] := by
      cases ns with
      | nil => rfl
      | cons a l => simp at h
    simp [this]
  | cons v vs' ih =>
    intro ns h hl
    cases ns with
    | nil => simp at h
    | cons n ns' =>
      simp only [List.map_cons, List.cons.injEq] at h
      have h1 := hl n (List.mem_cons_self n ns')
      rw [List.filterMap_cons, h.1, h1]
      rw [ih ns' h.2 (fun x hx => hl x (List.mem_cons_of_mem _ hx))]

theorem goChildren_emits (m' : NodeMap) :
    ∀ (ns : List AXNode) (fuel : Nat) (st : TravSt),
      ns.length < fuel →
      (∀ n ∈ ns, List.lookup n.nodeId m' = some n ∧ shouldFlattenNode n = false) →
      goChildren fuel m' (ns.map (fun n => n.nodeId)) st =
        ⟨(List.foldl emitStep (st.results, st.seen) ns).1,
         (List.foldl emitStep (st.results, st.seen) ns).2,
         st.visited⟩ := by
  intro ns
  induction ns with
  | nil =>
    intro fuel st hfu _
    cases fuel with
    | zero => omega
    | succ f => simp [goChildren]
  | cons n rest ih =>
    intro fuel st hfu hgood
    cases fuel with
    | zero => omega
    | succ f =>
      have hn := hgood n (List.mem_cons_self n rest)
      have hconv := axNodeToVFSNode_of_not_flatten n hn.2
      have hrest : ∀ x ∈ rest, List.lookup x.nodeId m' = some x ∧ shouldFlattenNode x = false :=
        fun x hx => hgood x (List.mem_cons_of_mem _ hx)
      simp only [List.map_cons, goChildren, hn.1]
      rw [hn.2]
      simp only [Bool.false_eq_true, if_false, hconv]
      rw [ih f _ (by simpa using Nat.lt_of_succ_lt_succ hfu) hrest]
      rw [List.foldl_cons]
      simp [emitStep, hconv]

/-- A fresh synthetic root whose children are the already-flattened output. -/
def rerunRoot (rootId : String) (out : List VFSNode) : AXNode :=
  { nodeId := rootId, childIds := some (out.map (fun v => v.axNodeId)) }

/-- The node map for the rerun: the fresh root plus the (original) nodes
backing the already-flattened entries. -/
def rerunMap (rootId : String) (m : NodeMap) (out : List VFSNode) : NodeMap :=
  buildNodeMap (rerunRoot rootId out :: out.filterMap (fun v => List.lookup v.axNodeId m))

/-- C8: every entry emitted by the mapping pass corresponds to a node of the
map that the flattening predicate would not flatten; consequently re-running
the mapping pass over its own already-flattened output (the entries installed
as the children of a fresh root) reproduces the entry list unchanged. -/
theorem flattenIdempotent (axNodes : List AXNode) (pid rootId : String)
    (hfresh : ∀ v ∈ getChildVFSNodes pid (buildNodeMap axNodes), v.axNodeId ≠ rootId) :
    (∀ v ∈ getChildVFSNodes pid (buildNodeMap axNodes),
      ∃ n, List.lookup v.axNodeId (buildNodeMap axNodes) = some n ∧
        shouldFlattenNode n = false) ∧
    getChildVFSNodes rootId
      (rerunMap rootId (buildNodeMap axNodes)
        (getChildVFSNodes pid (buildNodeMap axNodes))) =
      getChildVFSNodes pid (buildNodeMap axNodes) := by
  set m := buildNodeMap axNodes with hm
  have hwf : mapWF m := buildNodeMap_wf axNodes
  obtain ⟨ns, hg, hr, hs⟩ :=
    (travInv_preserved (nodeMapFuel m)).1 m pid ⟨[], [], []⟩ hwf (travInv_init m)
  have hout' : getChildVFSNodes pid m = (emitFold ns).1 := hr
  have hflat : ∀ n ∈ ns, shouldFlattenNode n = false := fun n hn => (hg n hn).2
  constructor
  · intro v hv
    rw [hout'] at hv
    rcases emitFold_mem_axId ns ([], []) v hv with h0 | ⟨n, hn, he⟩
    · exact absurd h0 (List.not_mem_nil v)
    · exact ⟨n, by rw [he]; exact (hg n hn).1, (hg n hn).2⟩
  · set out := getChildVFSNodes pid m with houtdef
    have hids : out.map (fun v => v.axNodeId) = ns.map (fun n => n.nodeId) := by
      rw [hout']
      simpa using emitFold_ids ns hflat ([], [])
    have hnodes : out.filterMap (fun v => List.lookup v.axNodeId m) = ns :=
      filterMap_lookup_eq m out ns hids (fun n hn => (hg n hn).1)
    have hnsid : ∀ n ∈ ns, n.nodeId ≠ rootId := by
      intro n hn
      have hmem : n.nodeId ∈ out.map (fun v => v.axNodeId) := by
        rw [hids]
        exact List.mem_map_of_mem _ hn
      obtain ⟨v, hv, he⟩ := List.mem_map.1 hmem
      rw [← he]
      exact hfresh v hv
    have hrootlookup :
        List.lookup rootId (rerunMap rootId m out) = some (rerunRoot rootId out) := by
      rw [rerunMap, hnodes, buildNodeMap, List.foldl_cons]
      rw [foldl_lookup_stable ns rootId _ hnsid]
      have : (rerunRoot rootId out).nodeId = rootId := rfl
      rw [this, mapSet_lookup, if_pos rfl]
    have hmemlookup : ∀ n ∈ ns, List.lookup n.nodeId (rerunMap rootId m out) = some n := by
      intro n hn
      rw [rerunMap, hnodes, buildNodeMap, List.foldl_cons]
      apply foldl_lookup_mem ns _ n hn
      intro n1 h1 n2 h2 he
      have e1 := (hg n1 h1).1
      have e2 := (hg n2 h2).1
      rw [he] at e1
      exact Option.some.inj (e1.symm.trans e2)
    have hrootmem : (rootId, rerunRoot rootId out) ∈ rerunMap rootId m out :=
      lookup_mem _ _ _ hrootlookup
    have hlenout : out.length = ns.length := by
      have := congrArg List.length hids
      simpa using this
    have hbound : ns.length + 4 ≤ nodeMapFuel (rerunMap rootId m out) := by
      have := nodeMapFuel_ge (rerunMap rootId m out) (rootId, rerunRoot rootId out) hrootmem
      simpa [rerunRoot, hlenout] using this
    obtain ⟨f, hf⟩ : ∃ f, nodeMapFuel (rerunMap rootId m out) = f + 1 :=
      ⟨nodeMapFuel (rerunMap rootId m out) - 1, by omega⟩
    show (collectChildren (nodeMapFuel (rerunMap rootId m out))
      (rerunMap rootId m out) rootId ⟨[], [], []⟩).results = out
    rw [hf]
    simp only [collectChildren, List.contains, List.elem]
    rw [hrootlookup]
    dsimp only [rerunRoot]
    rw [hids]
    rw [goChildren_emits (rerunMap rootId m out) ns f ⟨[], [], [rootId]⟩
      (by omega) (fun n hn => ⟨hmemlookup n hn, hflat n hn⟩)]
    rw [hout']
    rfl

/-- Nodes with an ignored structural wrapper, for the rerun witness. -/
def exFlatNodes : List AXNode :=
  [{ nodeId := "p", role := some ("section"), childIds := some [("w"), ("b")] },
   { nodeId := "w", role := some ("generic"), ignored := true, childIds := some [("a")] },
   { nodeId := "a", role := some ("section"), name := some ("a") },
   { nodeId := "b", role := some ("button"), name := some ("b") }]

theorem flattenIdempotent_witness :
    getChildVFSNodes ("R")
      (rerunMap ("R") (buildNodeMap exFlatNodes)
        (getChildVFSNodes ("p") (buildNodeMap exFlatNodes))) =
      getChildVFSNodes ("p") (buildNodeMap exFlatNodes) :=
  (flattenIdempotent exFlatNodes ("p") ("R") (by decide)).2
